import Mathlib

/-!
Verification development for the kitti3 dropdown-window manager core
(`src/kitti3/kitt.py`, `src/kitti3/util.py`).

The Python code is shallowly embedded: Python floats are modelled as exact
rationals (`ℚ`), machine integers as `ℤ`, fallible operations (attribute
errors, `KeyError`, `ZeroDivisionError`) as `Option`, and the i3 IPC
command emission as a list of payload strings.  The wall-clock pacing of
the animation loop and the crosstalk sleep are not modelled: only the
sequence of callback invocations / emitted commands is.
-/

namespace Kitti3Spec

/-! ### Kernel-computable rational arithmetic

Batteries marks `Rat.add`, `Rat.sub`, `Rat.mul` and `Rat.inv`
`@[irreducible]`, so concrete goals built from the standard `ℚ`
operations cannot be settled by kernel evaluation (`decide`).  The
embedding therefore routes its rational arithmetic through
`mkRat`/`Rat.divInt` equivalents, each proved equal to the standard
operation so that symbolic proofs can switch representation freely. -/

def qadd (a b : ℚ) : ℚ :=
  mkRat (a.num * (b.den : ℤ) + b.num * (a.den : ℤ)) (a.den * b.den)

def qsub (a b : ℚ) : ℚ :=
  mkRat (a.num * (b.den : ℤ) - b.num * (a.den : ℤ)) (a.den * b.den)

def qmul (a b : ℚ) : ℚ :=
  mkRat (a.num * b.num) (a.den * b.den)

def qdiv (a b : ℚ) : ℚ :=
  Rat.divInt (a.num * (b.den : ℤ)) ((a.den : ℤ) * b.num)

def qhalf : ℚ :=
  mkRat 1 2

/-! ### Python rounding primitives

`pyRound` models Python 3's built-in `round` on exact rationals:
round-half-to-even (banker's rounding).  `pyInt` models `int()`
truncation toward zero. -/

def pyRound (q : ℚ) : ℤ :=
  let fr := qsub q ((⌊q⌋ : ℤ) : ℚ)
  if fr < qhalf then ⌊q⌋
  else if qhalf < fr then ⌊q⌋ + 1
  else if ⌊q⌋ % 2 = 0 then ⌊q⌋ else ⌊q⌋ + 1

def pyInt (q : ℚ) : ℤ :=
  if q < 0 then ⌈q⌉ else ⌊q⌋

/-! ### Data model (`util.py`)

`Loc`, `Pos`, `Rect`, `Shape`, `Cattr`, `Client`, `AnimParams` are direct
translations of the classes in `util.py`.  The `Pos` enum's nine members
(with aliases `LEFT = TOP = LT = TL` etc.) become the inductive `PosN`;
`Pos.x` / `Pos.y` read the canonical member name's first / second letter. -/

inductive Loc
  | LEFT | RIGHT | TOP | BOTTOM | CENTER
  deriving DecidableEq

inductive PosN
  | LT | LC | LB | CT | CC | CB | RT | RC | RB
  deriving DecidableEq

def PosN.x : PosN → Loc
  | .LT | .LC | .LB => .LEFT
  | .CT | .CC | .CB => .CENTER
  | .RT | .RC | .RB => .RIGHT

def PosN.y : PosN → Loc
  | .LT | .CT | .RT => .TOP
  | .LC | .CC | .RC => .CENTER
  | .LB | .CB | .RB => .BOTTOM

structure Pos where
  name : PosN
  compat : Bool
  anchor : Option Loc
  deriving DecidableEq

/-- ASCII upper-casing on the character list (Python `str.upper`). -/
def strUpper (s : String) : String :=
  String.mk (s.data.map Char.toUpper)

def locOfChar (c : Char) : Option Loc :=
  if c = 'L' then some .LEFT
  else if c = 'R' then some .RIGHT
  else if c = 'T' then some .TOP
  else if c = 'B' then some .BOTTOM
  else if c = 'C' then some .CENTER
  else none

/-- Models `Pos._anchor_for`: `"CC"` has no anchor; a name starting with
`C` anchors on its second letter; otherwise on its first letter. -/
def anchorFor (u : String) : Option Loc :=
  if u = "CC" then none
  else if u = "CL" then some .LEFT
  else if u = "CR" then some .RIGHT
  else if u = "CT" then some .TOP
  else if u = "CB" then some .BOTTOM
  else match u.data.head? with
    | some c => locOfChar c
    | none => none

/-- Models `Pos.from_str`: uppercase member lookup (aliases included),
`compat` set exactly for the legacy spellings `LEFT` / `RIGHT`. -/
def Pos.from_str (s : String) : Option Pos :=
  let u := strUpper s
  let mem : Option PosN :=
    if u = "LT" ∨ u = "TL" ∨ u = "LEFT" ∨ u = "TOP" then some .LT
    else if u = "LC" ∨ u = "CL" then some .LC
    else if u = "LB" ∨ u = "BL" ∨ u = "BOTTOM" then some .LB
    else if u = "CT" ∨ u = "TC" then some .CT
    else if u = "CC" then some .CC
    else if u = "CB" ∨ u = "BC" then some .CB
    else if u = "RT" ∨ u = "TR" ∨ u = "RIGHT" then some .RT
    else if u = "RC" ∨ u = "CR" then some .RC
    else if u = "RB" ∨ u = "BR" then some .RB
    else none
  mem.map (fun m =>
    { name := m
      compat := decide (u = "LEFT" ∨ u = "RIGHT")
      anchor := anchorFor u })

structure Rect where
  x : ℤ
  y : ℤ
  w : ℤ
  h : ℤ
  deriving DecidableEq

structure Shape where
  x : ℚ
  y : ℚ
  deriving DecidableEq

/-- Models `Shape.from_strs` on already-validated fractions: the compat
flag reverses the order of the two fractions before building the shape. -/
def Shape.from_strs (fracts : List ℚ) (compat : Bool) : Option Shape :=
  match (if compat then fracts.reverse else fracts) with
  | [a, b] => some ⟨a, b⟩
  | _ => none

inductive Cattr
  | APP_ID | CLASS | CON_MARK | INSTANCE | TITLE
  deriving DecidableEq

/-- Models `Cattr.__str__` (lower-cased member name). -/
def Cattr.str : Cattr → String
  | .APP_ID => "app_id"
  | .CLASS => "class"
  | .CON_MARK => "con_mark"
  | .INSTANCE => "instance"
  | .TITLE => "title"

structure Client where
  cmd : Option String
  cattr : Cattr
  deriving DecidableEq

structure AnimParams where
  enabled : Bool
  anchor : Option Loc
  show_ : Option ℚ
  hide : Option ℚ
  fps : ℤ
  deriving DecidableEq

/-! ### Geometry engine (`Kitt.target_rect`)

Direct translation of `Kitt.target_rect`.  The per-axis dictionary
lookups become `xlookupPpt` / `ylookupPpt` / `xlookupAbs` / `ylookupAbs`.
The source dictionaries raise `KeyError` on the remaining `Loc` members,
but `PosN.x` only ever produces `LEFT`/`CENTER`/`RIGHT` and `PosN.y` only
`TOP`/`CENTER`/`BOTTOM`, so those cases are unreachable and mapped to 0. -/

def xlookupPpt (l : Loc) (width : ℤ) : ℤ :=
  match l with
  | .LEFT => 0
  | .CENTER => pyRound (qsub 50 (qdiv (width : ℚ) 2))
  | .RIGHT => 100 - width
  | _ => 0

def ylookupPpt (l : Loc) (height : ℤ) : ℤ :=
  match l with
  | .TOP => 0
  | .CENTER => pyRound (qsub 50 (qdiv (height : ℚ) 2))
  | .BOTTOM => 100 - height
  | _ => 0

def xlookupAbs (l : Loc) (ref : Rect) (width : ℤ) : ℤ :=
  match l with
  | .LEFT => ref.x
  | .CENTER => ref.x + pyRound (qsub (qdiv (ref.w : ℚ) 2) (qdiv (width : ℚ) 2))
  | .RIGHT => ref.x + ref.w - width
  | _ => 0

def ylookupAbs (l : Loc) (ref : Rect) (height : ℤ) : ℤ :=
  match l with
  | .TOP => ref.y
  | .CENTER => ref.y + pyRound (qsub (qdiv (ref.h : ℚ) 2) (qdiv (height : ℚ) 2))
  | .BOTTOM => ref.y + ref.h - height
  | _ => 0

def target_rect (shape : Shape) (pos : PosN) (abs_ref : Option Rect) : Rect :=
  match abs_ref with
  | none =>
    let width := pyRound (qmul shape.x 100)
    let height := pyRound (qmul shape.y 100)
    ⟨xlookupPpt pos.x width, ylookupPpt pos.y height, width, height⟩
  | some ref =>
    let width := pyRound (qmul (ref.w : ℚ) shape.x)
    let height := pyRound (qmul (ref.h : ℚ) shape.y)
    ⟨xlookupAbs pos.x ref width, ylookupAbs pos.y ref height, width, height⟩

/-! ### Spec-side geometry formula

`target_rect_spec` is written from the specification's words (§4.1), not
from the source: per axis, anchor low/center/high, extent `E` (100 in
percent mode, the frame's width/height in pixel mode), size
`S = round(fraction × E)`, base offset `O` (0 in percent mode, the
frame's x/y in pixel mode); offset low → `O`, center →
`O + round(E/2 − S/2)`, high → `O + E − S`. -/

inductive Anchor
  | low | center | high
  deriving DecidableEq

def anchorOfX : Loc → Anchor
  | .LEFT => .low
  | .CENTER => .center
  | .RIGHT => .high
  | .TOP => .low
  | .BOTTOM => .high

def anchorOfY : Loc → Anchor
  | .TOP => .low
  | .CENTER => .center
  | .BOTTOM => .high
  | .LEFT => .low
  | .RIGHT => .high

def axisSpec (a : Anchor) (frac : ℚ) (o e : ℤ) : ℤ × ℤ :=
  let s := pyRound (frac * (e : ℚ))
  (match a with
   | .low => o
   | .center => o + pyRound ((e : ℚ) / 2 - (s : ℚ) / 2)
   | .high => o + e - s, s)

def target_rect_spec (shape : Shape) (pos : PosN) (abs_ref : Option Rect) : Rect :=
  let frame := match abs_ref with
    | none => (⟨0, 0, 100, 100⟩ : Rect)
    | some r => r
  let xw := axisSpec (anchorOfX pos.x) shape.x frame.x frame.w
  let yh := axisSpec (anchorOfY pos.y) shape.y frame.y frame.h
  ⟨xw.1, yh.1, xw.2, yh.2⟩

/-- Reference frame of a `target_rect` call: the implicit 100×100
workspace at the origin in percent mode, the given rect in pixel mode. -/
def frameOf (abs_ref : Option Rect) : Rect :=
  match abs_ref with
  | none => ⟨0, 0, 100, 100⟩
  | some r => r

/-! ### Animation driver (`util.animate`)

`animate` is modelled by the sequence of `callback(pos, first, last)`
invocations it performs; the wall-clock busy/sleep pacing is dropped.
A result of `none` models an uncaught exception: the source computes
`delay = duration / (len(steps) - 1)`, which raises `ZeroDivisionError`
when deduplication collapses the interpolated positions to a single one
(e.g. whenever `start == end`), before any callback is invoked. -/

def linspacedList (start endp : ℤ) (num_steps : ℤ) (offset : Bool) : List ℤ :=
  let step_size : ℚ := qdiv (qsub (endp : ℚ) (start : ℚ)) (qsub (num_steps : ℚ) 1)
  (List.range num_steps.toNat).map
    (fun i : ℕ => pyRound (qadd (start : ℚ) (qmul step_size (qadd (i : ℚ) (if offset then 1 else 0)))))

def dedupAux : List ℤ → List ℤ → List ℤ
  | acc, [] => acc
  | acc, p :: rest => if p ∈ acc then dedupAux acc rest else dedupAux (acc ++ [p]) rest

/-- Models the duplicate-removal loop of `animate`: keep the first
occurrence of each position, in order. -/
def dedupKeep (l : List ℤ) : List ℤ :=
  dedupAux [] l

def animSeqAux (total : ℕ) : ℕ → List ℤ → List (ℤ × Bool × Bool)
  | _, [] => []
  | i, p :: rest => (p, decide (i = 0), decide (i = total - 1)) :: animSeqAux total (i + 1) rest

/-- The `(pos, first, last)` triples passed to the callback by the frame
loop of `animate`, one per deduplicated step. -/
def animSeq (steps : List ℤ) : List (ℤ × Bool × Bool) :=
  animSeqAux steps.length 0 steps

def animateCalls (start endp : ℤ) (duration : ℚ) (fps : ℤ) (offset : Bool) :
    Option (List (ℤ × Bool × Bool)) :=
  let num_steps := pyRound (qmul duration (fps : ℚ))
  if num_steps < 2 then some [(endp, true, true)]
  else
    let steps := dedupKeep (linspacedList start endp num_steps offset)
    if steps.length = 1 then none
    else some (animSeq steps)

/-! ### IPC snapshot model and association tracker (`Kitt.refresh`)

A `Con` is one node of the `get_tree()` snapshot, seen through the eyes
of the tracker: its id, the value of the configured criterion attribute
(`Cval.none` when the attribute is unset, a string for app-id / class /
instance / title, a list for marks), the workspace it resolves to via
`con.workspace()` (a stub with name and rect, no focus info), and its
own rect.  A `Workspace` is one entry of the `get_workspaces()` reply. -/

inductive Cval
  | none
  | str (s : String)
  | list (l : List String)
  deriving DecidableEq

structure WsRef where
  name : String
  rect : Rect
  deriving DecidableEq

structure Workspace where
  name : String
  focused : Bool
  rect : Rect
  deriving DecidableEq

structure Con where
  id : ℤ
  cval : Cval
  ws : Option WsRef
  rect : Rect
  deriving DecidableEq

/-- The full configuration handed to a `Kitt` at construction. -/
structure Cfg where
  name : String
  shape : Shape
  pos : PosN
  client : Client
  client_argv : List String
  anim : AnimParams
  loyal : Bool
  crosstalk_delay : Option ℚ
  deriving DecidableEq

/-- The mutable association state of a `Kitt` (`con_id`, `con_ws`,
`con_rect`, `focused_ws`). -/
structure St where
  con_id : Option ℤ
  con_ws : Option WsRef
  con_rect : Option Rect
  focused_ws : Option WsRef
  deriving DecidableEq

/-- Models `Kitt._cattr_matches`: unset attribute never matches; a string
value must equal the instance name; a list value must contain it. -/
def cattr_matches (name : String) (c : Con) : Bool :=
  match c.cval with
  | .none => false
  | .str s => decide (s = name)
  | .list l => decide (name ∈ l)

/-- The tree-scan predicate of `refresh`: in eager mode keep the first
criterion match, in lazy mode keep the currently tracked id. -/
def refresh_pred (cfg : Cfg) (eager : Bool) (conId : Option ℤ) (c : Con) : Bool :=
  (eager && cattr_matches cfg.name c) || (!eager && decide (conId = some c.id))

def clear_assoc (st : St) : St :=
  { st with con_id := none, con_ws := none, con_rect := none }

def bind_con (st : St) (c : Con) : St :=
  { st with con_id := some c.id, con_ws := c.ws, con_rect := some c.rect }

/-- The focused-workspace lookup of `refresh`: first entry of the
`get_workspaces()` reply with the focused flag (the `for`/`else` loop). -/
def focused_lookup (wss : List Workspace) : Option WsRef :=
  (wss.find? (fun w => w.focused)).map (fun w => ⟨w.name, w.rect⟩)

/-- The tail of `refresh`: perform the focused-workspace query and
compute the return value `None not in (con_id, con_ws, focused_ws)`. -/
def finish_refresh (st : St) (wss : List Workspace) : Bool × St :=
  let st' := { st with focused_ws := focused_lookup wss }
  (st'.con_id.isSome && st'.con_ws.isSome && st'.focused_ws.isSome, st')

/-- Models `Kitt.refresh`.  Eager when nothing is tracked or when
tracking a migratable mark without loyalty.  A failed lazy lookup clears
the association and re-runs the scan once, eagerly (the source's single
recursive `self.refresh()` call, unrolled: the retry starts with
`con_id = None`, hence is eager and cannot recurse again). -/
def refresh (cfg : Cfg) (tree : List Con) (wss : List Workspace) (st : St) : Bool × St :=
  let eager := st.con_id.isNone ||
    (decide (cfg.client.cattr = Cattr.CON_MARK) && !cfg.loyal)
  match tree.find? (refresh_pred cfg eager st.con_id) with
  | some con => finish_refresh (bind_con st con) wss
  | none =>
    if eager then finish_refresh (clear_assoc st) wss
    else
      match tree.find? (refresh_pred cfg true none) with
      | some con => finish_refresh (bind_con (clear_assoc st) con) wss
      | none => finish_refresh (clear_assoc st) wss

/-! ### Command grammar and alignment state machine (`kitt.py`)

The `self.commands` template table becomes one function per template;
each `self.i3.command(payload)` round-trip becomes one payload string in
the handler's output trace.  A handler result of `none` models an
uncaught Python exception (attribute access on `None`, `KeyError` on the
animation-anchor dictionary, or the `ZeroDivisionError` inside
`animate`). -/

inductive Event
  | HIDE | FLOATED | MOVED | SHOW | SPAWNED
  deriving DecidableEq

inductive Backend
  | sway
  | i3
  deriving DecidableEq

def crit_fmt (attr val : String) : String :=
  "[" ++ attr ++ "=" ++ val ++ "]"

def fetch_fmt (ws : String) : String :=
  "move container to workspace " ++ ws

def float_cmd : String :=
  "floating enable, border none"

def focus_cmd : String :=
  "focus"

def hide_cmd : String :=
  "floating enable, move scratchpad"

def move_fmt (x y : String) : String :=
  "move position " ++ x ++ "ppt " ++ y ++ "ppt"

def move_abs_fmt (x y : ℤ) : String :=
  "move absolute position " ++ toString x ++ "px " ++ toString y ++ "px"

def resize_fmt (w h : ℤ) : String :=
  "resize set " ++ toString w ++ "ppt " ++ toString h ++ "ppt"

def resize_abs_fmt (w h : ℤ) : String :=
  "resize set " ++ toString w ++ "px " ++ toString h ++ "px"

def optIdStr : Option ℤ → String
  | some i => toString i
  | none => "None"

/-- Models `Kitt.send`: one `[con_id=<id>]`-scoped payload containing the
comma-joined sub-commands. -/
def send_payload (conId : Option ℤ) (cmds : List String) : String :=
  crit_fmt "con_id" (optIdStr conId) ++ " " ++ String.intercalate ", " cmds

/-- Models `Kitt._escape`. -/
def escape_arg (s : String) : String :=
  if s.data.contains ' ' then "\"" ++ s ++ "\"" else s

/-- Models `Kitt.send_rule`: a `for_window` rule whose command list is
single-quoted. -/
def rule_payload (cfg : Cfg) (cmds : List String) : String :=
  "for_window " ++ crit_fmt cfg.client.cattr.str (escape_arg cfg.name) ++
    " \x27" ++ String.intercalate ", " cmds ++ "\x27"

/-- Models `Kitt.spawn`: no-op with a warning when spawning is disabled,
otherwise an `exec` of the command template with the escaped name
substituted and any extra client argv appended. -/
def base_spawn (cfg : Cfg) : List String :=
  match cfg.client.cmd with
  | none => []
  | some tmpl =>
    let cmd := "exec " ++ tmpl.replace "\x7b\x7d" (escape_arg cfg.name)
    match cfg.client_argv with
    | [] => [cmd]
    | argv => [cmd ++ " " ++ String.intercalate " " argv]

/-- Models `spawn` per backend: `Kitts.spawn` first installs a
`for_window` float/resize/move rule (percent units), then defers to the
base spawn; `Kitti3` uses the base spawn directly. -/
def spawn_cmds (b : Backend) (cfg : Cfg) : List String :=
  match b with
  | .i3 => base_spawn cfg
  | .sway =>
    match cfg.client.cmd with
    | none => []
    | some _ =>
      let r := target_rect cfg.shape cfg.pos none
      rule_payload cfg
        [float_cmd, resize_fmt r.w r.h,
         move_fmt (toString r.x) (toString r.y)] :: base_spawn cfg

/-- Models `Kitts._undisturbed`: compare the cached con rect against the
target rect converted to pixels the way sway truncates ppt values.
`none` models the attribute error on a missing cached rect or focused
workspace (never reached after a successful `refresh`). -/
def undisturbed (cfg : Cfg) (st : St) : Option Bool :=
  match st.con_rect, st.focused_ws with
  | some cr, some fw =>
    let tr := target_rect cfg.shape cfg.pos none
    let wr := fw.rect
    some ((decide (cr.x = pyInt (qadd (qmul (qdiv (tr.x : ℚ) 100) (wr.w : ℚ)) (wr.x : ℚ)))) &&
      (decide (cr.y = pyInt (qadd (qmul (qdiv (tr.y : ℚ) 100) (wr.h : ℚ)) (wr.y : ℚ)))) &&
      (decide (cr.w = pyInt (qmul (wr.w : ℚ) (qdiv (tr.w : ℚ) 100)))) &&
      (decide (cr.h = pyInt (qmul (wr.h : ℚ) (qdiv (tr.h : ℚ) 100)))))
  | _, _ => Option.none

/-- The anchor-edge dictionary of `Kitts._animate`: the move template
with one templated coordinate, and the entry (start, end) scalar pair.
`none` models the `KeyError` on `CENTER` or a missing anchor. -/
def animData (anchor : Option Loc) (r : Rect) : Option ((ℤ → String) × ℤ × ℤ) :=
  match anchor with
  | some .LEFT => some (fun p => move_fmt (toString p) (toString r.y), 0 - r.w, r.x)
  | some .RIGHT => some (fun p => move_fmt (toString p) (toString r.y), 100, r.x)
  | some .TOP => some (fun p => move_fmt (toString r.x) (toString p), 0 - r.h, r.y)
  | some .BOTTOM => some (fun p => move_fmt (toString r.x) (toString p), 100, r.y)
  | _ => Option.none

/-- Python's `hide and self.anim.hide or self.anim.show` duration pick:
falsy (`None` or `0.0`) values fall through to the show duration. -/
def anim_duration (anim : AnimParams) (hide : Bool) : Option ℚ :=
  if hide then
    match anim.hide with
    | some d => if d = 0 then anim.show_ else some d
    | none => anim.show_
  else anim.show_

/-- Models `Kitts._animate`: derive the slide axis from the anchor,
swap start/end for an exit slide, run `animate`, and turn each callback
invocation into its command payload (entry first frame folds in the
fetch/resize/focus; exit last frame sends the hide batch). -/
def kitts_animate (cfg : Cfg) (st : St) (hide : Bool) : Option (List String) :=
  let r := target_rect cfg.shape cfg.pos none
  match animData cfg.anim.anchor r with
  | none => none
  | some (mv, s0, e0) =>
    let se := if hide then (e0, s0) else (s0, e0)
    match anim_duration cfg.anim hide with
    | none => none
    | some duration =>
      match animateCalls se.1 se.2 duration cfg.anim.fps hide with
      | none => none
      | some calls =>
        calls.mapM (fun c =>
          if c.2.1 && !hide then
            (st.focused_ws.map (fun fw =>
              send_payload st.con_id
                [fetch_fmt fw.name, resize_fmt r.w r.h, mv c.1, focus_cmd]))
          else if c.2.2 && hide then
            some (send_payload st.con_id [hide_cmd])
          else some (send_payload st.con_id [mv c.1]))

/-- Models `Kitts.align_to_ws` (percent-unit backend). -/
def kitts_align (cfg : Cfg) (st : St) (event : Event) : Option (List String) :=
  if event = .SPAWNED then some []
  else
    let r := target_rect cfg.shape cfg.pos none
    if event = .SHOW then
      if cfg.anim.enabled && cfg.anim.show_.isSome then kitts_animate cfg st false
      else
        match st.focused_ws with
        | none => none
        | some fw =>
          some [send_payload st.con_id
            [fetch_fmt fw.name, resize_fmt r.w r.h,
             move_fmt (toString r.x) (toString r.y), focus_cmd]]
    else if event = .HIDE then
      if cfg.anim.enabled && cfg.anim.hide.isSome then
        match undisturbed cfg st with
        | none => none
        | some true => kitts_animate cfg st true
        | some false => some [send_payload st.con_id [hide_cmd]]
      else some [send_payload st.con_id [hide_cmd]]
    else
      some [send_payload st.con_id
        [resize_fmt r.w r.h, move_fmt (toString r.x) (toString r.y)]]

/-- Models `Kitti3.align_to_ws` (absolute-pixel backend): resolve the
destination workspace's rect first, then issue absolute resize/move. -/
def kitti3_align (cfg : Cfg) (st : St) (event : Event) : Option (List String) :=
  if event = .SPAWNED then some [send_payload st.con_id [float_cmd]]
  else
    match (if event = .SHOW then st.focused_ws else st.con_ws) with
    | none => none
    | some ws =>
      let r := target_rect cfg.shape cfg.pos (some ws.rect)
      if event = .SHOW then
        some [send_payload st.con_id
          [fetch_fmt ws.name, resize_abs_fmt r.w r.h,
           move_abs_fmt r.x r.y, focus_cmd]]
      else if event = .HIDE then
        some [send_payload st.con_id [hide_cmd]]
      else
        some [send_payload st.con_id [resize_abs_fmt r.w r.h, move_abs_fmt r.x r.y]]

def align_to_ws (b : Backend) (cfg : Cfg) (st : St) (event : Event) :
    Option (List String) :=
  match b with
  | .sway => kitts_align cfg st event
  | .i3 => kitti3_align cfg st event

/-- Models `Kitt.on_keybind`: on the matching `nop <name>` payload,
refresh; spawn when unbound and non-actionable; hide when the bound
window sits on the focused workspace; otherwise show. -/
def on_keybind (b : Backend) (cfg : Cfg) (tree : List Con) (wss : List Workspace)
    (st : St) (payload : String) : Option (St × List String) :=
  if payload = "nop " ++ cfg.name then
    let r := refresh cfg tree wss st
    if r.1 then
      match r.2.con_ws, r.2.focused_ws with
      | some cws, some fws =>
        if cws.name = fws.name then
          (align_to_ws b cfg r.2 .HIDE).map (fun cs => (r.2, cs))
        else
          (align_to_ws b cfg r.2 .SHOW).map (fun cs => (r.2, cs))
      | _, _ => none
    else
      if r.2.con_id = none then some (r.2, spawn_cmds b cfg)
      else some (r.2, [])
  else some (st, [])

/-- Models `Kitt.on_spawned`: bind to a criterion-matching window unless
loyal to an existing association, then refresh and run the backend's
SPAWNED transition when actionable. -/
def on_spawned (b : Backend) (cfg : Cfg) (tree : List Con) (wss : List Workspace)
    (st : St) (con : Con) : Option (St × List String) :=
  if !cattr_matches cfg.name con then some (st, [])
  else if st.con_id.isSome && cfg.loyal then some (st, [])
  else
    let r := refresh cfg tree wss { st with con_id := some con.id }
    if r.1 then (align_to_ws b cfg r.2 .SPAWNED).map (fun cs => (r.2, cs))
    else some (r.2, [])

/-! ### Concrete scenario fixtures

A one-workspace compositor snapshot used by the witnesses and
counterexamples: workspace `ws1` is focused, rect `(0,0,200,100)`, and
the managed window's criterion attribute (`window_instance`) is the
string `"kitti3"`.  With shape `(1.0, 0.4)` and position `RT` the
percent target rect is `(0,0,100,40)`, so a con rect of `(0,0,200,40)`
is exactly "undisturbed" on `ws1`. -/

def ws1 : WsRef := ⟨"ws1", ⟨0, 0, 200, 100⟩⟩

def wss1 : List Workspace := [⟨"ws1", true, ⟨0, 0, 200, 100⟩⟩]

def conA : Con := ⟨1, .str "kitti3", some ws1, ⟨0, 0, 200, 40⟩⟩

def conB : Con := ⟨2, .str "kitti3", some ws1, ⟨0, 0, 200, 40⟩⟩

def con7 : Con := ⟨7, .str "kitti3", some ws1, ⟨0, 0, 200, 40⟩⟩

def cfgPlain : Cfg :=
  { name := "kitti3", shape := ⟨1, mkRat 2 5⟩, pos := .RT,
    client := ⟨none, .INSTANCE⟩, client_argv := [],
    anim := ⟨false, some .RIGHT, none, none, 60⟩, loyal := false,
    crosstalk_delay := none }

def cfgAnim : Cfg :=
  { cfgPlain with anim := ⟨true, some .RIGHT, some (mkRat 1 10), some (mkRat 1 10), 60⟩ }

def stBound : St := ⟨some 1, some ws1, some ⟨0, 0, 200, 40⟩, some ws1⟩

def stEmpty : St := ⟨none, none, none, none⟩

/-! ### Bridging and helper lemmas -/

lemma qden_cast_ne_zero (a : ℚ) : ((a.den : ℚ)) ≠ 0 := by
  exact_mod_cast a.den_nz

lemma qadd_eq (a b : ℚ) : qadd a b = a + b := by
  have ha := qden_cast_ne_zero a
  have hb := qden_cast_ne_zero b
  rw [qadd, Rat.mkRat_eq_div]
  conv_rhs => rw [← Rat.num_div_den a, ← Rat.num_div_den b]
  push_cast
  field_simp

lemma qsub_eq (a b : ℚ) : qsub a b = a - b := by
  have ha := qden_cast_ne_zero a
  have hb := qden_cast_ne_zero b
  rw [qsub, Rat.mkRat_eq_div]
  conv_rhs => rw [← Rat.num_div_den a, ← Rat.num_div_den b]
  push_cast
  field_simp
  ring

lemma qmul_eq (a b : ℚ) : qmul a b = a * b := by
  have ha := qden_cast_ne_zero a
  have hb := qden_cast_ne_zero b
  rw [qmul, Rat.mkRat_eq_div]
  conv_rhs => rw [← Rat.num_div_den a, ← Rat.num_div_den b]
  push_cast
  field_simp

lemma qdiv_eq (a b : ℚ) : qdiv a b = a / b := by
  by_cases hb : b = 0
  · subst hb
    simp [qdiv, Rat.divInt_eq_div]
  · have ha := qden_cast_ne_zero a
    have hbd := qden_cast_ne_zero b
    have hbn : ((b.num : ℚ)) ≠ 0 := by
      exact_mod_cast Rat.num_ne_zero.mpr hb
    rw [qdiv, Rat.divInt_eq_div]
    conv_rhs => rw [← Rat.num_div_den a, ← Rat.num_div_den b]
    push_cast
    field_simp

lemma qhalf_eq : qhalf = 1 / 2 := by
  rw [qhalf, Rat.mkRat_eq_div]
  norm_num

lemma pyRound_eq (q : ℚ) : pyRound q =
    if Int.fract q < 1 / 2 then ⌊q⌋
    else if 1 / 2 < Int.fract q then ⌊q⌋ + 1
    else if ⌊q⌋ % 2 = 0 then ⌊q⌋ else ⌊q⌋ + 1 := by
  unfold pyRound
  rw [qsub_eq, qhalf_eq, Int.fract]

lemma pyRound_ge {n : ℤ} {q : ℚ} (h : (n : ℚ) ≤ q) : n ≤ pyRound q := by
  have h1 : n ≤ ⌊q⌋ := Int.le_floor.mpr h
  rw [pyRound_eq]
  split
  · exact h1
  split
  · omega
  split <;> omega

lemma pyRound_le {n : ℤ} {q : ℚ} (h : q ≤ (n : ℚ)) : pyRound q ≤ n := by
  have hfl : ⌊q⌋ ≤ n := by
    have := Int.floor_le_floor h
    simpa using this
  rw [pyRound_eq]
  split
  · exact hfl
  · have hfr : (1 : ℚ) / 2 ≤ Int.fract q := le_of_not_lt (by assumption)
    have hne : q ≠ (n : ℚ) := by
      intro hq
      rw [hq] at hfr
      simp [Int.fract_intCast] at hfr
      norm_num at hfr
    have hlt : q < (n : ℚ) := lt_of_le_of_ne h hne
    have hfl' : ⌊q⌋ < n := Int.floor_lt.mpr hlt
    split
    · omega
    split <;> omega

lemma pyRound_intCast (n : ℤ) : pyRound (n : ℚ) = n := by
  rw [pyRound_eq]
  rw [Int.fract_intCast, Int.floor_intCast]
  norm_num

lemma pyRound_zero : pyRound 0 = 0 := by
  have := pyRound_intCast 0
  simpa using this

lemma mem_dedupAux {x : ℤ} : ∀ (l acc : List ℤ), x ∈ dedupAux acc l → x ∈ acc ∨ x ∈ l := by
  intro l
  induction l with
  | nil => intro acc h; exact Or.inl (by simpa [dedupAux] using h)
  | cons p rest ih =>
    intro acc h
    rw [dedupAux] at h
    by_cases hp : p ∈ acc
    · rw [if_pos hp] at h
      rcases ih acc h with h1 | h1
      · exact Or.inl h1
      · exact Or.inr (List.mem_cons_of_mem _ h1)
    · rw [if_neg hp] at h
      rcases ih (acc ++ [p]) h with h1 | h1
      · rcases List.mem_append.mp h1 with h2 | h2
        · exact Or.inl h2
        · exact Or.inr (by simp at h2; simp [h2])
      · exact Or.inr (List.mem_cons_of_mem _ h1)

lemma mem_dedupKeep {x : ℤ} {l : List ℤ} (h : x ∈ dedupKeep l) : x ∈ l := by
  rcases mem_dedupAux l [] h with h1 | h1
  · simp at h1
  · exact h1

lemma mem_animSeqAux {c : ℤ × Bool × Bool} :
    ∀ (l : List ℤ) (total i : ℕ), c ∈ animSeqAux total i l → c.1 ∈ l := by
  intro l
  induction l with
  | nil => intro total i h; simp [animSeqAux] at h
  | cons p rest ih =>
    intro total i h
    rw [animSeqAux] at h
    rcases List.mem_cons.mp h with h1 | h1
    · simp [h1]
    · exact List.mem_cons_of_mem _ (ih total (i + 1) h1)

lemma mem_animSeq {c : ℤ × Bool × Bool} {steps : List ℤ} (h : c ∈ animSeq steps) :
    c.1 ∈ steps :=
  mem_animSeqAux steps steps.length 0 h

/-! ### Claims about the animation driver -/

/-- C6: whenever `round(duration × fps) < 2`, `animate` invokes its
callback exactly once, with position `end` and both the first-frame and
last-frame flags set, and emits no further frame. -/
theorem animate_degenerate_single_call (start endp : ℤ) (duration : ℚ) (fps : ℤ)
    (offset : Bool) (h : pyRound (duration * (fps : ℚ)) < 2) :
    animateCalls start endp duration fps offset = some [(endp, true, true)] := by
  have h' : pyRound (qmul duration ((fps : ℤ) : ℚ)) < 2 := by rwa [qmul_eq]
  simp only [animateCalls]
  rw [if_pos h']

theorem animate_degenerate_single_call_witness :
    pyRound (mkRat 1 100 * ((1 : ℤ) : ℚ)) < 2 ∧
      animateCalls 0 5 (mkRat 1 100) 1 false = some [(5, true, true)] :=
  ⟨by rw [← qmul_eq]; decide,
   animate_degenerate_single_call 0 5 (mkRat 1 100) 1 false (by rw [← qmul_eq]; decide)⟩

/-- C4 (code bug): `animate` does not terminate normally on all
configuration-accepted inputs.  With `start = end = 0`,
`duration = 0.1`, `fps = 60` (so `num_steps = 6 ≥ 2`) the interpolated
positions all deduplicate to one, and the source then computes
`delay = duration / (len(steps) - 1)`, a division by zero: the model
yields `none` (an uncaught `ZeroDivisionError`) before any callback. -/
theorem animate_zero_travel_crash :
    pyRound (mkRat 1 10 * ((60 : ℤ) : ℚ)) = 6 ∧
      animateCalls 0 0 (mkRat 1 10) 60 false = none := by
  constructor
  · rw [← qmul_eq]; decide
  · decide

/-! ### Claims about the geometry engine -/

/-- C9 counterexample: the claimed rect `(x=0, y=30, w=100, h=40)` is not
what the code computes for `Position=RIGHT` in percent mode — neither
with the shape read as `Shape(x=1.0, y=0.4)` (which gives `y = 0`, since
`RIGHT` is the alias of member `RT`, whose y-anchor is `TOP`) nor with
the compat-reversed reading `Shape(x=0.4, y=1.0)`. -/
theorem compat_right_rect_cex :
    target_rect ⟨1, mkRat 2 5⟩ .RT none ≠ ⟨0, 30, 100, 40⟩ ∧
      target_rect ⟨mkRat 2 5, 1⟩ .RT none ≠ ⟨0, 30, 100, 40⟩ := by
  decide

/-- C9 (amended): `Pos.from_str "RIGHT"` resolves to member `RT` with the
compat flag set and animation anchor `RIGHT`; the compat flag only
reverses the two shape fractions in `Shape.from_strs`; and the
percent-mode target rect for `Shape(1.0, 0.4)` at `RT` is
`(x=0, y=0, w=100, h=40)` — x is 0 because `100 − width = 0` at the
`RIGHT` anchor, and y is 0 because `RT`'s y-anchor is `TOP`. -/
theorem compat_right_rect :
    Pos.from_str "RIGHT" = some ⟨.RT, true, some .RIGHT⟩ ∧
      Shape.from_strs [1, mkRat 2 5] true = some ⟨mkRat 2 5, 1⟩ ∧
      target_rect ⟨1, mkRat 2 5⟩ .RT none = ⟨0, 0, 100, 40⟩ := by
  decide

/-! ### Claims about the association tracker -/

lemma finish_refresh_fst (st : St) (wss : List Workspace) :
    (finish_refresh st wss).1 = true ↔
      (st.con_id ≠ none ∧ st.con_ws ≠ none ∧ ∃ w ∈ wss, w.focused = true) := by
  simp only [finish_refresh, Bool.and_eq_true, Option.isSome_iff_ne_none]
  constructor
  · rintro ⟨⟨h1, h2⟩, h3⟩
    refine ⟨h1, h2, ?_⟩
    have : (focused_lookup wss).isSome := by
      simpa [Option.isSome_iff_ne_none] using h3
    simpa [focused_lookup, List.find?_isSome] using this
  · rintro ⟨h1, h2, h3⟩
    refine ⟨⟨h1, h2⟩, ?_⟩
    have : (focused_lookup wss).isSome := by
      simpa [focused_lookup, List.find?_isSome] using h3
    simpa [Option.isSome_iff_ne_none] using this

lemma finish_refresh_con_id (st : St) (wss : List Workspace) :
    (finish_refresh st wss).2.con_id = st.con_id := rfl

lemma finish_refresh_con_ws (st : St) (wss : List Workspace) :
    (finish_refresh st wss).2.con_ws = st.con_ws := rfl

lemma finish_refresh_con_rect (st : St) (wss : List Workspace) :
    (finish_refresh st wss).2.con_rect = st.con_rect := rfl

/-- C3: `refresh` returns `true` exactly when, after binding resolution,
a con id is tracked, its workspace resolved, and the workspace query
found a focused workspace.  The function is total (every branch returns
a boolean): no input raises an exception. -/
theorem refresh_ok_iff (cfg : Cfg) (tree : List Con) (wss : List Workspace) (st : St) :
    (refresh cfg tree wss st).1 = true ↔
      ((refresh cfg tree wss st).2.con_id ≠ none ∧
        (refresh cfg tree wss st).2.con_ws ≠ none ∧
        ∃ w ∈ wss, w.focused = true) := by
  unfold refresh
  cases h1 : tree.find? (refresh_pred cfg
      (st.con_id.isNone || (decide (cfg.client.cattr = Cattr.CON_MARK) && !cfg.loyal))
      st.con_id) with
  | some con =>
    simp only [h1, finish_refresh_fst, finish_refresh_con_id, finish_refresh_con_ws]
  | none =>
    simp only [h1]
    by_cases he : (st.con_id.isNone ||
        (decide (cfg.client.cattr = Cattr.CON_MARK) && !cfg.loyal)) = true
    · rw [if_pos he]
      simp only [finish_refresh_fst, finish_refresh_con_id, finish_refresh_con_ws]
    · rw [if_neg he]
      cases h2 : tree.find? (refresh_pred cfg true none) with
      | some con =>
        simp only [h2, finish_refresh_fst, finish_refresh_con_id, finish_refresh_con_ws]
      | none =>
        simp only [h2, finish_refresh_fst, finish_refresh_con_id, finish_refresh_con_ws]

/-- C10: after any `refresh`, the association state is consistently bound
or consistently cleared: the tracked con id is `None` exactly when both
the cached con workspace and the cached con rect carry no stale value
paired with it — a failed lookup clears all three together, a successful
one rebinds the id and rect together (the workspace coming from the
fresh snapshot, possibly absent). -/
theorem refresh_state_consistent (cfg : Cfg) (tree : List Con) (wss : List Workspace) (st : St) :
    ((refresh cfg tree wss st).2.con_id = none ↔
      ((refresh cfg tree wss st).2.con_ws = none ∧
        (refresh cfg tree wss st).2.con_rect = none)) := by
  unfold refresh
  cases h1 : tree.find? (refresh_pred cfg
      (st.con_id.isNone || (decide (cfg.client.cattr = Cattr.CON_MARK) && !cfg.loyal))
      st.con_id) with
  | some con =>
    simp [h1, finish_refresh_con_id, finish_refresh_con_ws, finish_refresh_con_rect, bind_con]
  | none =>
    simp only [h1]
    by_cases he : (st.con_id.isNone ||
        (decide (cfg.client.cattr = Cattr.CON_MARK) && !cfg.loyal)) = true
    · rw [if_pos he]
      simp [finish_refresh_con_id, finish_refresh_con_ws, finish_refresh_con_rect, clear_assoc]
    · rw [if_neg he]
      cases h2 : tree.find? (refresh_pred cfg true none) with
      | some con =>
        simp [h2, finish_refresh_con_id, finish_refresh_con_ws, finish_refresh_con_rect,
          bind_con, clear_assoc]
      | none =>
        simp [h2, finish_refresh_con_id, finish_refresh_con_ws, finish_refresh_con_rect,
          clear_assoc]

/-! ### Geometry formula and bounds -/

lemma PosN.x_mem (p : PosN) : p.x = Loc.LEFT ∨ p.x = Loc.CENTER ∨ p.x = Loc.RIGHT := by
  cases p <;> simp [PosN.x]

lemma PosN.y_mem (p : PosN) : p.y = Loc.TOP ∨ p.y = Loc.CENTER ∨ p.y = Loc.BOTTOM := by
  cases p <;> simp [PosN.y]

lemma size_ppt_bounds (f : ℚ) (h0 : 0 ≤ f) (h1 : f ≤ 1) :
    0 ≤ pyRound (qmul f 100) ∧ pyRound (qmul f 100) ≤ 100 := by
  rw [qmul_eq]
  constructor
  · exact pyRound_ge (by push_cast; nlinarith)
  · exact pyRound_le (by push_cast; nlinarith)

lemma size_abs_bounds (f : ℚ) (e : ℤ) (h0 : 0 ≤ f) (h1 : f ≤ 1) (he : 0 ≤ e) :
    0 ≤ pyRound (qmul (e : ℚ) f) ∧ pyRound (qmul (e : ℚ) f) ≤ e := by
  rw [qmul_eq]
  have he' : (0 : ℚ) ≤ (e : ℚ) := by exact_mod_cast he
  constructor
  · exact pyRound_ge (by push_cast; nlinarith)
  · exact pyRound_le (by push_cast; nlinarith)

lemma center_ppt_le (w : ℤ) (hw : w ≤ 100) :
    pyRound (qsub 50 (qdiv (w : ℚ) 2)) ≤ 100 - w := by
  rw [qsub_eq, qdiv_eq]
  refine pyRound_le ?_
  have : ((w : ℤ) : ℚ) ≤ 100 := by exact_mod_cast hw
  push_cast
  linarith

lemma center_ppt_zero : pyRound (qsub 50 (qdiv ((100 : ℤ) : ℚ) 2)) = 0 := by
  have h : qsub 50 (qdiv ((100 : ℤ) : ℚ) 2) = 0 := by
    rw [qsub_eq, qdiv_eq]
    norm_num
  rw [h, pyRound_zero]

lemma center_abs_le (e s : ℤ) (hs : s ≤ e) :
    pyRound (qsub (qdiv (e : ℚ) 2) (qdiv (s : ℚ) 2)) ≤ e - s := by
  rw [qsub_eq, qdiv_eq, qdiv_eq]
  refine pyRound_le ?_
  have : ((s : ℤ) : ℚ) ≤ (e : ℤ) := by exact_mod_cast hs
  push_cast
  linarith

lemma center_abs_zero (e : ℤ) :
    pyRound (qsub (qdiv (e : ℚ) 2) (qdiv ((e : ℤ) : ℚ) 2)) = 0 := by
  have h : qsub (qdiv (e : ℚ) 2) (qdiv ((e : ℤ) : ℚ) 2) = 0 := by
    rw [qsub_eq, qdiv_eq]
    ring
  rw [h, pyRound_zero]

lemma size_ppt_full : pyRound (qmul (1 : ℚ) 100) = 100 := by
  have h : qmul (1 : ℚ) 100 = ((100 : ℤ) : ℚ) := by
    rw [qmul_eq]
    norm_num
  rw [h, pyRound_intCast]

lemma size_abs_full (e : ℤ) : pyRound (qmul (e : ℚ) 1) = e := by
  have h : qmul (e : ℚ) 1 = ((e : ℤ) : ℚ) := by
    rw [qmul_eq]
    ring
  rw [h, pyRound_intCast]

/-- C1: `target_rect` computes each axis independently by the
specification's formula (size `S = round(fraction × E)`; offset low `O`,
center `O + round(E/2 − S/2)`, high `O + E − S`; percent mode `E = 100`,
`O = 0`, pixel mode `E`/`O` from the reference rect), and on workspace
rect `(0,0,1920,1080)` with `Shape(0.5, 0.5)` and CENTER/CENTER anchors
it returns `(480, 270, 960, 540)`. -/
theorem target_rect_formula (sh : Shape) (pos : PosN) (abs_ref : Option Rect)
    (h0x : 0 ≤ sh.x) (h1x : sh.x ≤ 1) (h0y : 0 ≤ sh.y) (h1y : sh.y ≤ 1) :
    target_rect sh pos abs_ref = target_rect_spec sh pos abs_ref ∧
      target_rect ⟨mkRat 1 2, mkRat 1 2⟩ .CC (some ⟨0, 0, 1920, 1080⟩) = ⟨480, 270, 960, 540⟩ := by
  refine ⟨?_, by decide⟩
  cases abs_ref with
  | none =>
    cases pos <;>
      simp only [target_rect, target_rect_spec, axisSpec, anchorOfX, anchorOfY, PosN.x,
        PosN.y, xlookupPpt, ylookupPpt, qmul_eq, qsub_eq, qdiv_eq, Rect.mk.injEq] <;>
      norm_num
  | some r =>
    cases pos <;>
      simp only [target_rect, target_rect_spec, axisSpec, anchorOfX, anchorOfY, PosN.x,
        PosN.y, xlookupAbs, ylookupAbs, qmul_eq, qsub_eq, qdiv_eq, Rect.mk.injEq] <;>
      norm_num [mul_comm]

theorem target_rect_formula_witness :
    target_rect ⟨mkRat 1 2, mkRat 1 2⟩ .CC (some ⟨0, 0, 1920, 1080⟩) =
        target_rect_spec ⟨mkRat 1 2, mkRat 1 2⟩ .CC (some ⟨0, 0, 1920, 1080⟩) ∧
      target_rect ⟨mkRat 1 2, mkRat 1 2⟩ .CC (some ⟨0, 0, 1920, 1080⟩) = ⟨480, 270, 960, 540⟩ :=
  target_rect_formula ⟨mkRat 1 2, mkRat 1 2⟩ .CC (some ⟨0, 0, 1920, 1080⟩)
    (by norm_num [Rat.mkRat_eq_div]) (by norm_num [Rat.mkRat_eq_div])
    (by norm_num [Rat.mkRat_eq_div]) (by norm_num [Rat.mkRat_eq_div])

/-- C2: for all nine anchor pairs and both reference-frame modes, the
target rect never overflows the reference frame on either axis, and a
`1.0` fraction with the center anchor lands exactly on the frame origin
of that axis. -/
theorem target_rect_no_overflow (sh : Shape) (pos : PosN) (abs_ref : Option Rect)
    (h0x : 0 ≤ sh.x) (h1x : sh.x ≤ 1) (h0y : 0 ≤ sh.y) (h1y : sh.y ≤ 1)
    (hw : 0 ≤ (frameOf abs_ref).w) (hh : 0 ≤ (frameOf abs_ref).h) :
    (target_rect sh pos abs_ref).x + (target_rect sh pos abs_ref).w ≤
        (frameOf abs_ref).x + (frameOf abs_ref).w ∧
      (target_rect sh pos abs_ref).y + (target_rect sh pos abs_ref).h ≤
        (frameOf abs_ref).y + (frameOf abs_ref).h ∧
      (sh.x = 1 → pos.x = Loc.CENTER → (target_rect sh pos abs_ref).x = (frameOf abs_ref).x) ∧
      (sh.y = 1 → pos.y = Loc.CENTER → (target_rect sh pos abs_ref).y = (frameOf abs_ref).y) := by
  cases abs_ref with
  | none =>
    simp only [target_rect, frameOf]
    obtain ⟨hx0, hx1⟩ := size_ppt_bounds sh.x h0x h1x
    obtain ⟨hy0, hy1⟩ := size_ppt_bounds sh.y h0y h1y
    refine ⟨?_, ?_, ?_, ?_⟩
    · rcases PosN.x_mem pos with hp | hp | hp <;> rw [hp] <;> simp only [xlookupPpt]
      · omega
      · have := center_ppt_le (pyRound (qmul sh.x 100)) hx1
        omega
      · omega
    · rcases PosN.y_mem pos with hp | hp | hp <;> rw [hp] <;> simp only [ylookupPpt]
      · omega
      · have := center_ppt_le (pyRound (qmul sh.y 100)) hy1
        omega
      · omega
    · intro hx hc
      rw [hc]
      simp only [xlookupPpt]
      rw [hx, size_ppt_full]
      exact center_ppt_zero
    · intro hy hc
      rw [hc]
      simp only [ylookupPpt]
      rw [hy, size_ppt_full]
      exact center_ppt_zero
  | some r =>
    simp only [frameOf] at hw hh
    simp only [target_rect, frameOf]
    obtain ⟨hx0, hx1⟩ := size_abs_bounds sh.x r.w h0x h1x hw
    obtain ⟨hy0, hy1⟩ := size_abs_bounds sh.y r.h h0y h1y hh
    refine ⟨?_, ?_, ?_, ?_⟩
    · rcases PosN.x_mem pos with hp | hp | hp <;> rw [hp] <;> simp only [xlookupAbs]
      · omega
      · have := center_abs_le r.w (pyRound (qmul (r.w : ℚ) sh.x)) hx1
        omega
      · omega
    · rcases PosN.y_mem pos with hp | hp | hp <;> rw [hp] <;> simp only [ylookupAbs]
      · omega
      · have := center_abs_le r.h (pyRound (qmul (r.h : ℚ) sh.y)) hy1
        omega
      · omega
    · intro hx hc
      rw [hc]
      simp only [xlookupAbs]
      rw [hx, size_abs_full]
      rw [center_abs_zero]
      ring
    · intro hy hc
      rw [hc]
      simp only [ylookupAbs]
      rw [hy, size_abs_full]
      rw [center_abs_zero]
      ring

theorem target_rect_no_overflow_witness :
    (0 : ℚ) ≤ mkRat 2 5 ∧ mkRat 2 5 ≤ 1 ∧
      ((target_rect ⟨1, mkRat 2 5⟩ .RB (some ⟨5, 7, 1920, 1080⟩)).x +
          (target_rect ⟨1, mkRat 2 5⟩ .RB (some ⟨5, 7, 1920, 1080⟩)).w ≤
          (frameOf (some ⟨5, 7, 1920, 1080⟩)).x + (frameOf (some ⟨5, 7, 1920, 1080⟩)).w ∧
        (target_rect ⟨1, mkRat 2 5⟩ .RB (some ⟨5, 7, 1920, 1080⟩)).y +
            (target_rect ⟨1, mkRat 2 5⟩ .RB (some ⟨5, 7, 1920, 1080⟩)).h ≤
          (frameOf (some ⟨5, 7, 1920, 1080⟩)).y + (frameOf (some ⟨5, 7, 1920, 1080⟩)).h ∧
        ((1 : ℚ) = 1 → PosN.RB.x = Loc.CENTER →
          (target_rect ⟨1, mkRat 2 5⟩ .RB (some ⟨5, 7, 1920, 1080⟩)).x =
            (frameOf (some ⟨5, 7, 1920, 1080⟩)).x) ∧
        (mkRat 2 5 = 1 → PosN.RB.y = Loc.CENTER →
          (target_rect ⟨1, mkRat 2 5⟩ .RB (some ⟨5, 7, 1920, 1080⟩)).y =
            (frameOf (some ⟨5, 7, 1920, 1080⟩)).y)) :=
  ⟨by rw [Rat.mkRat_eq_div]; norm_num, by rw [Rat.mkRat_eq_div]; norm_num,
    target_rect_no_overflow ⟨1, mkRat 2 5⟩ .RB (some ⟨5, 7, 1920, 1080⟩)
      (by norm_num) (by norm_num)
      (by rw [Rat.mkRat_eq_div]; norm_num) (by rw [Rat.mkRat_eq_div]; norm_num)
      (by norm_num [frameOf]) (by norm_num [frameOf])⟩

/-! ### Interpolation candidates and bounds -/

lemma linspacedList_eq (start endp n : ℤ) (offset : Bool) :
    linspacedList start endp n offset =
      (List.range n.toNat).map (fun i : ℕ =>
        pyRound ((start : ℚ) +
          ((endp : ℚ) - (start : ℚ)) / ((n : ℚ) - 1) *
            ((i : ℚ) + (if offset then 1 else 0)))) := by
  simp only [linspacedList, qadd_eq, qsub_eq, qmul_eq, qdiv_eq]

lemma lerp_bounds (a b : ℤ) (t : ℚ) (h0 : 0 ≤ t) (h1 : t ≤ 1) :
    ((min a b : ℤ) : ℚ) ≤ (a : ℚ) + ((b : ℚ) - a) * t ∧
      (a : ℚ) + ((b : ℚ) - a) * t ≤ ((max a b : ℤ) : ℚ) := by
  rcases le_total a b with h | h
  · rw [min_eq_left h, max_eq_right h]
    have hab : (a : ℚ) ≤ b := by exact_mod_cast h
    constructor
    · nlinarith
    · nlinarith
  · rw [min_eq_right h, max_eq_left h]
    have hab : (b : ℚ) ≤ a := by exact_mod_cast h
    constructor
    · nlinarith
    · nlinarith

/-- C5 counterexample: with `start = 0`, `end = 10`, `duration = 0.1`,
`fps = 60` and `offsetParity = true`, the callback receives position
`12`, which does not lie between `start` and `end`: the offset shifts
the interpolation phase by one full step (`int(True) = 1` steps), not a
half step, so the final frame overshoots `end`. -/
theorem animate_offset_overshoot_cex :
    (animateCalls 0 10 (mkRat 1 10) 60 true).map (fun l => l.map (fun c => c.1)) =
        some [2, 4, 6, 8, 10, 12] ∧
      ¬ ((12 : ℤ) ≤ max 0 10) := by
  decide

/-- C5 (amended): when `round(duration × fps) ≥ 2`, every position the
callback receives is one of the interpolation candidates
`round(start + step × (i + offset))` for `i < numSteps` — `offsetParity`
shifting the phase by one full step, not a half step — and when
`offsetParity = false` every such position lies between `start` and
`end` inclusive. -/
theorem animate_calls_interpolation (start endp : ℤ) (duration : ℚ) (fps : ℤ)
    (offset : Bool) (calls : List (ℤ × Bool × Bool))
    (h2 : 2 ≤ pyRound (duration * (fps : ℚ)))
    (hc : animateCalls start endp duration fps offset = some calls) :
    (∀ c ∈ calls, c.1 ∈
        (List.range (pyRound (duration * (fps : ℚ))).toNat).map (fun i : ℕ =>
          pyRound ((start : ℚ) +
            ((endp : ℚ) - (start : ℚ)) / ((pyRound (duration * (fps : ℚ)) : ℚ) - 1) *
              ((i : ℚ) + (if offset then 1 else 0))))) ∧
      (offset = false → ∀ c ∈ calls, min start endp ≤ c.1 ∧ c.1 ≤ max start endp) := by
  have hq : pyRound (qmul duration ((fps : ℤ) : ℚ)) = pyRound (duration * (fps : ℚ)) := by
    rw [qmul_eq]
  have h2q : ¬ pyRound (qmul duration ((fps : ℤ) : ℚ)) < 2 := by omega
  rw [animateCalls] at hc
  rw [if_neg h2q] at hc
  by_cases hlen :
      (dedupKeep (linspacedList start endp (pyRound (qmul duration ((fps : ℤ) : ℚ))) offset)).length = 1
  · rw [if_pos hlen] at hc
    exact absurd hc (by simp)
  · rw [if_neg hlen] at hc
    have hcalls := (Option.some.inj hc).symm
    subst hcalls
    have hmem : ∀ c ∈ animSeq
        (dedupKeep (linspacedList start endp (pyRound (qmul duration ((fps : ℤ) : ℚ))) offset)),
        c.1 ∈ linspacedList start endp (pyRound (duration * (fps : ℚ))) offset := by
      intro c hcm
      rw [← hq]
      exact mem_dedupKeep (mem_animSeq hcm)
    constructor
    · intro c hcm
      have := hmem c hcm
      rwa [linspacedList_eq] at this
    · intro hoff c hcm
      have hmem' := hmem c hcm
      rw [linspacedList_eq] at hmem'
      rw [List.mem_map] at hmem'
      obtain ⟨i, hi, hval⟩ := hmem'
      rw [List.mem_range] at hi
      set n := pyRound (duration * (fps : ℚ)) with hn
      have hiZ : (i : ℤ) < n := by
        have h1 : ((i : ℕ) : ℤ) < ((n.toNat : ℤ)) := by exact_mod_cast hi
        rwa [Int.toNat_of_nonneg (by omega)] at h1
      have hn1 : (1 : ℚ) ≤ (n : ℚ) - 1 := by
        have h22 : ((2 : ℤ) : ℚ) ≤ (n : ℚ) := by exact_mod_cast h2
        push_cast at h22
        linarith
    
      have hiq : (i : ℚ) ≤ (n : ℚ) - 1 := by
        have h1 : ((i : ℤ) : ℚ) ≤ ((n - 1 : ℤ) : ℚ) := by exact_mod_cast (by omega : (i : ℤ) ≤ n - 1)
        push_cast at h1
        push_cast
        linarith
      have ht0 : 0 ≤ (i : ℚ) / ((n : ℚ) - 1) := by positivity
      have ht1 : (i : ℚ) / ((n : ℚ) - 1) ≤ 1 := by
        rw [div_le_one (by linarith)]
        exact hiq
      obtain ⟨hlow, hhigh⟩ := lerp_bounds start endp ((i : ℚ) / ((n : ℚ) - 1)) ht0 ht1
      have hveq : (start : ℚ) +
          ((endp : ℚ) - (start : ℚ)) / ((n : ℚ) - 1) * ((i : ℚ) + (if offset then 1 else 0)) =
          (start : ℚ) + ((endp : ℚ) - (start : ℚ)) * ((i : ℚ) / ((n : ℚ) - 1)) := by
        rw [hoff]
        push_cast
        ring
      rw [hveq] at hval
      constructor
      · exact hval ▸ pyRound_ge hlow
      · exact hval ▸ pyRound_le hhigh

theorem animate_calls_interpolation_witness :
    (2 ≤ pyRound (mkRat 1 10 * ((60 : ℤ) : ℚ)) ∧
        animateCalls 0 10 (mkRat 1 10) 60 false =
          some [(0, true, false), (2, false, false), (4, false, false), (6, false, false),
            (8, false, false), (10, false, true)]) ∧
      (false = false → ∀ c ∈ [((0 : ℤ), true, false), (2, false, false), (4, false, false),
          (6, false, false), (8, false, false), (10, false, true)],
        min (0 : ℤ) 10 ≤ c.1 ∧ c.1 ≤ max (0 : ℤ) 10) :=
  ⟨⟨by rw [← qmul_eq]; decide, by decide⟩,
    (animate_calls_interpolation 0 10 (mkRat 1 10) 60 false
      [(0, true, false), (2, false, false), (4, false, false), (6, false, false),
        (8, false, false), (10, false, true)]
      (by rw [← qmul_eq]; decide) (by decide)).2⟩

/-! ### Loyalty on window creation (`on_spawned`) -/

lemma refresh_find_con_id (cfg : Cfg) (tree : List Con) (wss : List Workspace) (st : St)
    (c0 : Con)
    (hfind : tree.find? (refresh_pred cfg
        (st.con_id.isNone || (decide (cfg.client.cattr = Cattr.CON_MARK) && !cfg.loyal))
        st.con_id) = some c0) :
    (refresh cfg tree wss st).2.con_id = some c0.id := by
  unfold refresh
  simp only [hfind]
  simp [finish_refresh_con_id, bind_con]

/-- C7 counterexample: with loyalty disabled and a window bound, a
matching "window created" event for con id 2 does not rebind the tracked
id to 2 when the tree snapshot used by the subsequent `refresh` lacks
con 2: the lazy lookup fails, the despawn retry eagerly re-binds the old
con 1, and the handler ends with tracked id 1. -/
theorem on_spawned_rebind_cex :
    cattr_matches cfgPlain.name conB = true ∧ cfgPlain.loyal = false ∧
      stBound.con_id = some 1 ∧ conB.id = 2 ∧
      (on_spawned .i3 cfgPlain [conA] wss1 stBound conB).map (fun p => p.1.con_id) =
        some (some 1) ∧
      some (some (1 : ℤ)) ≠ some (some (2 : ℤ)) := by
  decide

/-- C7 (amended): while loyal and bound, a matching "window created"
event with any con id leaves the handler's state (and tracked id)
unchanged and emits nothing; with loyalty disabled the event rebinds the
tracked id to the new window's id, provided the refresh lookup over the
snapshot resolves to a con with that id (which always holds when the new
window is in the snapshot under a non-mark criterion, and for marks when
it is the first match). -/
theorem on_spawned_loyalty (b : Backend) (cfg : Cfg) (tree : List Con)
    (wss : List Workspace) (st : St) (con : Con) (i : ℤ) (c0 : Con)
    (hmatch : cattr_matches cfg.name con = true) :
    (cfg.loyal = true → st.con_id = some i →
      on_spawned b cfg tree wss st con = some (st, [])) ∧
    (cfg.loyal = false →
      tree.find? (refresh_pred cfg (decide (cfg.client.cattr = Cattr.CON_MARK))
        (some con.id)) = some c0 →
      c0.id = con.id →
      (on_spawned b cfg tree wss st con).map (fun p => p.1.con_id) = some (some con.id)) := by
  constructor
  · intro hl hst
    simp [on_spawned, hmatch, hst, hl]
  · intro hl hfind hid
    have hcon0 : (refresh cfg tree wss { st with con_id := some con.id }).2.con_id =
        some c0.id := by
      apply refresh_find_con_id
      simpa [hl] using hfind
    have hcon : (refresh cfg tree wss { st with con_id := some con.id }).2.con_id =
        some con.id := by
      rw [hcon0, hid]
    unfold on_spawned
    rw [hmatch]
    rw [hl]
    simp only [Bool.not_true, Bool.and_false, Bool.false_eq_true, if_false]
    by_cases hr : (refresh cfg tree wss { st with con_id := some con.id }).1 = true
    · rw [if_pos hr]
      cases b
      · simp [align_to_ws, kitts_align, hcon]
      · simp [align_to_ws, kitti3_align, hcon]
    · rw [if_neg hr]
      simp [hcon]

theorem on_spawned_loyalty_witness :
    cattr_matches cfgPlain.name conB = true ∧
      ((cfgPlain.loyal = true → stBound.con_id = some 1 →
          on_spawned .i3 cfgPlain [conB] wss1 stBound conB = some (stBound, [])) ∧
        (cfgPlain.loyal = false →
          List.find? (refresh_pred cfgPlain
            (decide (cfgPlain.client.cattr = Cattr.CON_MARK)) (some conB.id)) [conB] =
            some conB →
          conB.id = conB.id →
          (on_spawned .i3 cfgPlain [conB] wss1 stBound conB).map (fun p => p.1.con_id) =
            some (some conB.id))) :=
  ⟨by decide,
    on_spawned_loyalty .i3 cfgPlain [conB] wss1 stBound conB 1 conB (by decide)⟩

/-! ### The keybind hide path (`on_keybind`) -/

/-- C8 counterexample: on the sway backend with the hide animation
enabled (duration 0.1, fps 60) and the bound window exactly at its
target rect on the focused workspace, the keybind toggle does not emit
only the hide batch: the animated exit emits five intermediate
`move position` payloads before the final hide batch. -/
theorem keybind_hide_anim_cex :
    (refresh cfgAnim [con7] wss1 stEmpty).1 = true ∧
      (refresh cfgAnim [con7] wss1 stEmpty).2.con_ws = some ws1 ∧
      (refresh cfgAnim [con7] wss1 stEmpty).2.focused_ws = some ws1 ∧
      on_keybind .sway cfgAnim [con7] wss1 stEmpty "nop kitti3" =
        some ((refresh cfgAnim [con7] wss1 stEmpty).2,
          ["[con_id=7] move position 20ppt 0ppt", "[con_id=7] move position 40ppt 0ppt",
            "[con_id=7] move position 60ppt 0ppt", "[con_id=7] move position 80ppt 0ppt",
            "[con_id=7] move position 100ppt 0ppt",
            "[con_id=7] floating enable, move scratchpad"]) ∧
      (["[con_id=7] move position 20ppt 0ppt", "[con_id=7] move position 40ppt 0ppt",
          "[con_id=7] move position 60ppt 0ppt", "[con_id=7] move position 80ppt 0ppt",
          "[con_id=7] move position 100ppt 0ppt",
          "[con_id=7] floating enable, move scratchpad"] ≠
        [send_payload (some 7) [hide_cmd]]) := by
  decide

/-- C8 (amended): when the keybind fires while bound, the refresh
succeeds and the bound window's workspace name equals the focused
workspace's, the handler emits exactly the hide batch
(`floating enable, move scratchpad` under the `con_id` criterion) —
unconditionally on the i3 backend, and on the sway backend whenever the
hide animation does not run (animation disabled, no hide duration, or
the window rect differing from its target, i.e. `_undisturbed()`
false); the animated sway exit instead emits move frames first. -/
theorem keybind_hide_batch (b : Backend) (cfg : Cfg) (tree : List Con)
    (wss : List Workspace) (st : St) (cws fws : WsRef)
    (hok : (refresh cfg tree wss st).1 = true)
    (hcw : (refresh cfg tree wss st).2.con_ws = some cws)
    (hfw : (refresh cfg tree wss st).2.focused_ws = some fws)
    (hname : cws.name = fws.name)
    (hanim : b = Backend.sway → cfg.anim.enabled = true → cfg.anim.hide.isSome = true →
      undisturbed cfg (refresh cfg tree wss st).2 = some false) :
    on_keybind b cfg tree wss st ("nop " ++ cfg.name) =
      some ((refresh cfg tree wss st).2,
        [send_payload (refresh cfg tree wss st).2.con_id [hide_cmd]]) := by
  unfold on_keybind
  rw [if_pos rfl]
  simp only [hok, if_true, hcw, hfw]
  rw [if_pos hname]
  cases b with
  | i3 =>
    simp [align_to_ws, kitti3_align, hcw]
  | sway =>
    by_cases hen : (cfg.anim.enabled && cfg.anim.hide.isSome) = true
    · rw [Bool.and_eq_true] at hen
      obtain ⟨h1, h2⟩ := hen
      have hen' : (cfg.anim.enabled && cfg.anim.hide.isSome) = true := by
        rw [Bool.and_eq_true]
        exact ⟨h1, h2⟩
      have hu := hanim rfl h1 h2
      simp [align_to_ws, kitts_align, hen', hu]
    · simp [align_to_ws, kitts_align, hen]

theorem keybind_hide_batch_witness :
    ((refresh cfgPlain [con7] wss1 stEmpty).1 = true ∧
        (refresh cfgPlain [con7] wss1 stEmpty).2.con_ws = some ws1 ∧
        (refresh cfgPlain [con7] wss1 stEmpty).2.focused_ws = some ws1 ∧
        ws1.name = ws1.name) ∧
      on_keybind .i3 cfgPlain [con7] wss1 stEmpty ("nop " ++ cfgPlain.name) =
        some ((refresh cfgPlain [con7] wss1 stEmpty).2,
          [send_payload (refresh cfgPlain [con7] wss1 stEmpty).2.con_id [hide_cmd]]) :=
  ⟨by decide,
    keybind_hide_batch .i3 cfgPlain [con7] wss1 stEmpty ws1 ws1
      (by decide) (by decide) (by decide) rfl (by decide)⟩

end Kitti3Spec
